import Mathlib

/-
Shallow embedding of evernote-markdown (src/convert.py), an Evernote ENEX to
Markdown converter.

Modelling conventions:
  * Byte strings are `List Nat`.
  * The md5 hex digest (`hashlib.md5(...).hexdigest()`) and MIME detection
    (`magic.from_buffer(..., mime=True)`) are external capabilities; they are
    injected as function parameters `md5hex, detectMime : Bytes → String`.
  * A Python `dict` with string keys is an association list together with the
    operations `dictFind` (subscript / `.get`), `dictInsert` (assignment:
    replace in place or append) and `dictOf` (the `dict(pairs)` constructor,
    later duplicates win).
  * Filesystem paths are strings joined with "/"; `os.extsep` is "." (POSIX).
    The filesystem state visible to `process_emex` is the set of existing
    media files (`file_path.exists()`) plus a log of `write_bytes` calls.
  * HTML attributes, as delivered by `html.parser.HTMLParser`, are pairs
    `String × Option String`: a valueless attribute carries `none`.
  * `ElementTree.iterparse` with default arguments yields one event per
    element END tag, in document order; `iterate_emex` dispatches on the tag
    of each such event.  The generator in `iterate_emex` is lazy and shares
    the mutable `media_paths` dict with its consumer `process_emex`, so the
    two loops interleave strictly in event order; the model fuses them into
    the single step function `stepEvent`.
-/

abbrev Bytes := List Nat

/-- Python dict lookup on an association list: the value of the most recent
assignment to the key, `none` when the key is absent (`KeyError` for a
subscript, the default for `.get`). -/
def dictFind {α : Type} : List (String × α) → String → Option α
  | [], _ => none
  | (k1, v1) :: rest, k => if k1 = k then some v1 else dictFind rest k

/-- Python dict assignment `m[k] = v`: replaces the value at an existing key in
place, otherwise appends a new binding (insertion order preserved). -/
def dictInsert {α : Type} : List (String × α) → String → α → List (String × α)
  | [], k, v => [(k, v)]
  | (k1, v1) :: rest, k, v =>
    if k1 = k then (k, v) :: rest else (k1, v1) :: dictInsert rest k v

/-- Python `dict(pairs)`: build a dict from a pair list, later duplicates
overwriting earlier ones. -/
def dictOf {α : Type} (ps : List (String × α)) : List (String × α) :=
  ps.foldl (fun m kv => dictInsert m kv.1 kv.2) []

/-- The fixed MIME-type to file-extension table of src/convert.py. -/
def EXTENSIONS : List (String × String) :=
  [ ("application/x-empty", "txt")
  , ("image/gif", "gif")
  , ("image/jpeg", "jpeg")
  , ("image/png", "png")
  , ("image/svg", "svg")
  , ("image/svg+xml", "svg")
  , ("image/x-ms-bmp", "bmp")
  , ("application/pdf", "pdf") ]

/-- Value of a character in the standard base64 alphabet, `none` for any other
character (including the padding character). -/
def b64Val (c : Char) : Option Nat :=
  if 'A' ≤ c ∧ c ≤ 'Z' then some (c.toNat - 65)
  else if 'a' ≤ c ∧ c ≤ 'z' then some (c.toNat - 97 + 26)
  else if '0' ≤ c ∧ c ≤ '9' then some (c.toNat - 48 + 52)
  else if c = '+' then some 62
  else if c = '/' then some 63
  else none

/-- Core loop of CPython `binascii.a2b_base64` in non-strict mode (what
`base64.b64decode` calls with `validate=False`): characters outside the
alphabet are skipped; a padding character at quad position ≥ 2 that completes
the quad ends decoding; a final quad position of 1 raises the
"1 more than a multiple of 4" error, positions 2 and 3 raise
"Incorrect padding".  State: remaining input, quad position, pending bits,
pending padding count, reversed output accumulator. -/
def a2bBase64Aux : List Char → Nat → Nat → Nat → List Nat → Except String Bytes
  | [], quadPos, _, _, acc =>
    if quadPos = 0 then .ok acc.reverse
    else if quadPos = 1 then
      .error "Invalid base64-encoded string: number of data characters cannot be 1 more than a multiple of 4"
    else .error "Incorrect padding"
  | c :: rest, quadPos, leftchar, pads, acc =>
    if c = '=' then
      if 2 ≤ quadPos then
        if 4 ≤ quadPos + (pads + 1) then .ok acc.reverse
        else a2bBase64Aux rest quadPos leftchar (pads + 1) acc
      else a2bBase64Aux rest quadPos leftchar pads acc
    else
      match b64Val c with
      | none => a2bBase64Aux rest quadPos leftchar pads acc
      | some v =>
        match quadPos with
        | 0 => a2bBase64Aux rest 1 v 0 acc
        | 1 => a2bBase64Aux rest 2 (v % 16) 0 ((leftchar * 4 + v / 16) :: acc)
        | 2 => a2bBase64Aux rest 3 (v % 4) 0 ((leftchar * 16 + v / 4) :: acc)
        | _ => a2bBase64Aux rest 0 0 0 ((leftchar * 64 + v) :: acc)

/-- ASCII-encodability of one character, as tested by
`_bytes_from_decode_data` when `base64.b64decode` receives a `str`:
`s.encode('ascii')` succeeds exactly when every code point is below 128. -/
def isAsciiChar (c : Char) : Bool := c.toNat < 128

/-- Python `base64.b64decode(s)` with default `validate=False` on a `str`
argument: `_bytes_from_decode_data` first encodes the string as ASCII,
raising `ValueError` when any character is non-ASCII, and only then does the
non-strict `binascii.a2b_base64` loop run over the bytes. -/
def b64decode (s : String) : Except String Bytes :=
  if s.toList.all isAsciiChar then a2bBase64Aux s.toList 0 0 0 []
  else .error "string argument should contain only ASCII characters"

/-- The `data` branch of `iterate_emex`:
`base64.b64decode(element.text or '')` — a missing text (`None`) decodes like
the empty string. -/
def decodeDataText (text : Option String) : Except String Bytes :=
  b64decode (text.getD "")

/-- Errors that abort a run of `process_emex`.  `unsupportedMediaType` is the
`KeyError` raised by `EXTENSIONS[mime_type]` (the spec taxonomy name);
`binasciiError` is the error of `base64.b64decode` (a `binascii.Error` from
the decoding loop, or the plain `ValueError` of its ASCII check — both are
`ValueError`s in Python); `nameError` is
the `NameError` of reading a local variable before its first assignment. -/
inductive RunError where
  | unsupportedMediaType (mime : String)
  | binasciiError (msg : String)
  | nameError (varName : String)
deriving DecidableEq, Repr

/-- State threaded through `process_emex`, lines 52-83: the fingerprint→path
dict `media_paths`, the set of media files present on disk
(`file_path.exists()`), and the log of `file_path.write_bytes` calls. -/
structure PEState where
  mediaPaths : List (String × String)
  existingFiles : List String
  writeEvents : List String
deriving DecidableEq, Repr

/-- Resource branch of `process_emex` (src/convert.py lines 70-83): compute the
md5 hex digest and MIME type, look up the extension (KeyError when absent),
write the bytes under `{output}/media/{digest}.{ext}` unless that file already
exists, and record `media_paths[digest] = media/{digest}.{ext}`.  Returns the
recorded relative path. -/
def registerResource (md5hex detectMime : Bytes → String) (outputPath : String)
    (st : PEState) (data : Bytes) : Except RunError (String × PEState) :=
  let hexDigest := md5hex data
  let mimeType := detectMime data
  match dictFind EXTENSIONS mimeType with
  | none => .error (.unsupportedMediaType mimeType)
  | some ext =>
    let fileName := hexDigest ++ "." ++ ext
    let filePath := outputPath ++ "/media/" ++ fileName
    let st1 :=
      if filePath ∈ st.existingFiles then st
      else { st with existingFiles := filePath :: st.existingFiles
                   , writeEvents := st.writeEvents ++ [filePath] }
    let relPath := "media/" ++ fileName
    .ok (relPath, { st1 with mediaPaths := dictInsert st1.mediaPaths hexDigest relPath })

/-- Errors raised by `ContentParser.handle_starttag` (both are Python
`KeyError`): `missingAttr` from `attrs_dict["hash"]` when the attribute is
absent, `unknownResourceReference` — the spec taxonomy name — from
`media_paths[h]` when `h` (a string, or `None` for a valueless attribute) is
not a registered fingerprint. -/
inductive TagError where
  | missingAttr (k : String)
  | unknownResourceReference (h : Option String)
deriving DecidableEq, Repr

/-- Observable effect of one `handle_starttag` call: the strings passed to
`self.o`, the messages passed to `logging.error`, and whether the call fell
through to the generic html2text handler (`super().handle_starttag`, a black
box external to this repository). -/
structure TagResult where
  output : List String
  diagnostics : List String
  delegated : Bool
deriving DecidableEq, Repr

/-- Python truthiness of `attrs_dict.get(k)`: truthy exactly when the key is
present with a non-empty string value (absent gives `None`, falsy; a valueless
attribute gives `None` as well; the empty string is falsy). -/
def pyTruthy : Option (Option String) → Bool
  | some (some s) => s ≠ ""
  | _ => false

/-- Rendering of `attrs_dict.get("title", "")` inside an f-string: the default
empty string when absent, the string itself when present, and the literal
`"None"` when the attribute is present without a value (f-strings format
`None` as `"None"`). -/
def fstrOfGet : Option (Option String) → String
  | none => ""
  | some none => "None"
  | some (some s) => s

/-- `ContentParser.handle_starttag` (src/convert.py lines 117-129), given the
`media_paths` dict the parser was constructed with. -/
def handle_starttag (mediaPaths : List (String × String)) (tag : String)
    (attrs : List (String × Option String)) : Except TagError TagResult :=
  let attrsDict := dictOf attrs
  if tag = "en-note" then
    .ok ⟨[], [], false⟩
  else if tag = "en-media" then
    match dictFind attrsDict "hash" with
    | none => .error (.missingAttr "hash")
    | some none => .error (.unknownResourceReference none)
    | some (some h) =>
      match dictFind mediaPaths h with
      | none => .error (.unknownResourceReference (some h))
      | some p =>
        .ok ⟨["![" ++ fstrOfGet (dictFind attrsDict "title") ++ "](" ++ p ++ ")"], [], false⟩
  else if tag = "en-crypt" then
    .ok ⟨[], ["<en-crypt> is not implemented."], false⟩
  else if tag = "en-todo" then
    .ok ⟨[if pyTruthy (dictFind attrsDict "checked") then "[x]" else "[ ]"], [], false⟩
  else
    .ok ⟨[], [], true⟩

/-- `ContentParser.handle_endtag` (src/convert.py lines 131-135): the four
domain tags are skipped, everything else is delegated. -/
def handle_endtag (tag : String) : TagResult :=
  if tag = "en-note" ∨ tag = "en-media" ∨ tag = "en-crypt" ∨ tag = "en-todo"
  then ⟨[], [], false⟩
  else ⟨[], [], true⟩

/-- One `iterparse` end-of-element event: the element tag and its text
(`None` for an empty element). -/
structure Event where
  tag : String
  text : Option String
deriving DecidableEq, Repr

/-- Record of one completed note as handed to the note writer: the captured
title and content texts, and the snapshot of `media_paths` that
`ContentParser(media_paths).handle(content)` reads during the note's
transformation. -/
structure NoteOut where
  title : Option String
  content : Option String
  mediaAtTransform : List (String × String)
deriving DecidableEq, Repr

/-- Full pipeline state: the local variables `title`, `content`, `data` of
`iterate_emex` (outer `none` = not yet assigned, reading it is a `NameError`;
they persist across notes, never being cleared), the `process_emex` state, and
the log of completed notes. -/
structure RunState where
  title : Option (Option String)
  content : Option (Option String)
  data : Option Bytes
  pe : PEState
  notes : List NoteOut
deriving DecidableEq, Repr

/-- Processing of one end event by the fused `iterate_emex` / `process_emex`
loop (src/convert.py lines 63-83 and 94-105): `title` and `content` capture
the element text; `data` base64-decodes it; `resource` registers the current
`data` payload; `note` hands the note, transformed against the current
`media_paths`, to the writer; any other tag is ignored. -/
def stepEvent (md5hex detectMime : Bytes → String) (outputPath : String)
    (st : RunState) (e : Event) : Except RunError RunState :=
  if e.tag = "title" then
    .ok { st with title := some e.text }
  else if e.tag = "content" then
    .ok { st with content := some e.text }
  else if e.tag = "data" then
    match decodeDataText e.text with
    | .error msg => .error (.binasciiError msg)
    | .ok bs => .ok { st with data := some bs }
  else if e.tag = "resource" then
    match st.data with
    | none => .error (.nameError "data")
    | some bs =>
      match registerResource md5hex detectMime outputPath st.pe bs with
      | .error err => .error err
      | .ok (_, pe1) => .ok { st with pe := pe1 }
  else if e.tag = "note" then
    match st.title with
    | none => .error (.nameError "title")
    | some t =>
      match st.content with
      | none => .error (.nameError "content")
      | some c => .ok { st with notes := st.notes ++ [⟨t, c, st.pe.mediaPaths⟩] }
  else
    .ok st

/-- Run the fused pipeline over a list of events, stopping at the first
error. -/
def runEvents (md5hex detectMime : Bytes → String) (outputPath : String) :
    RunState → List Event → Except RunError RunState
  | st, [] => .ok st
  | st, e :: es =>
    match stepEvent md5hex detectMime outputPath st e with
    | .error err => .error err
    | .ok st1 => runEvents md5hex detectMime outputPath st1 es

/-- Initial pipeline state: no captured texts, empty `media_paths`, an empty
media directory, nothing written yet. -/
def initRun : RunState := ⟨none, none, none, ⟨[], [], []⟩, []⟩

/-- One note of a well-formed archive, as the spec describes the input format:
a title, an opaque rich-markup content string, and the base64 texts of the
resources nested inside the note. -/
structure SrcNote where
  title : String
  content : String
  resources : List String

/-- End events produced by one `resource` subtree: the nested `data` element
closes first, then the `resource` element itself. -/
def resourceEvents (t : String) : List Event :=
  [⟨"data", some t⟩, ⟨"resource", none⟩]

/-- End events produced by one `note` subtree, in document order: `title` and
`content` close first, every nested `resource` closes before the note, and the
`note` end event comes last. -/
def noteEvents (n : SrcNote) : List Event :=
  ⟨"title", some n.title⟩ :: ⟨"content", some n.content⟩ ::
    ((n.resources.map resourceEvents).flatten ++ [⟨"note", none⟩])

/-- End events of a well-formed archive: the notes' events in document
order. -/
def archiveEvents (ns : List SrcNote) : List Event :=
  (ns.map noteEvents).flatten

/-! ### Dictionary lemmas -/

theorem dictFind_dictInsert {α : Type} (m : List (String × α)) (k : String) (v : α)
    (q : String) :
    dictFind (dictInsert m k v) q = if k = q then some v else dictFind m q := by
  induction m with
  | nil => simp [dictInsert, dictFind]
  | cons kv rest ih =>
    obtain ⟨k1, v1⟩ := kv
    by_cases h1 : k1 = k
    · subst h1
      by_cases h2 : k1 = q <;> simp [dictInsert, dictFind, h2]
    · by_cases h2 : k1 = q
      · subst h2
        have h3 : k ≠ k1 := fun h => h1 h.symm
        simp [dictInsert, h1, dictFind, h3]
      · simp [dictInsert, h1, dictFind, h2, ih]

theorem dictInsert_dictInsert_same {α : Type} (m : List (String × α)) (k : String)
    (v : α) :
    dictInsert (dictInsert m k v) k v = dictInsert m k v := by
  induction m with
  | nil => simp [dictInsert]
  | cons kv rest ih =>
    obtain ⟨k1, v1⟩ := kv
    by_cases h1 : k1 = k
    · subst h1
      simp [dictInsert]
    · simp [dictInsert, h1, ih]

/-! ### Resource-registration lemmas -/

theorem registerResource_eval (md5hex detectMime : Bytes → String) (outputPath : String)
    (st : PEState) (b : Bytes) (ext : String)
    (hext : dictFind EXTENSIONS (detectMime b) = some ext) :
    registerResource md5hex detectMime outputPath st b =
      if outputPath ++ "/media/" ++ (md5hex b ++ "." ++ ext) ∈ st.existingFiles then
        .ok ("media/" ++ (md5hex b ++ "." ++ ext),
          { st with mediaPaths :=
              dictInsert st.mediaPaths (md5hex b) ("media/" ++ (md5hex b ++ "." ++ ext)) })
      else
        .ok ("media/" ++ (md5hex b ++ "." ++ ext),
          { mediaPaths :=
              dictInsert st.mediaPaths (md5hex b) ("media/" ++ (md5hex b ++ "." ++ ext))
          , existingFiles := (outputPath ++ "/media/" ++ (md5hex b ++ "." ++ ext)) :: st.existingFiles
          , writeEvents := st.writeEvents ++ [outputPath ++ "/media/" ++ (md5hex b ++ "." ++ ext)] }) := by
  simp only [registerResource, hext]
  by_cases hmem : outputPath ++ "/media/" ++ (md5hex b ++ "." ++ ext) ∈ st.existingFiles <;>
    simp [hmem]

theorem registerResource_ok_of_ext (md5hex detectMime : Bytes → String)
    (outputPath : String) (st : PEState) (b : Bytes) (ext : String)
    (hext : dictFind EXTENSIONS (detectMime b) = some ext) :
    ∃ st1, registerResource md5hex detectMime outputPath st b =
        .ok ("media/" ++ (md5hex b ++ "." ++ ext), st1) ∧
      st1.mediaPaths =
        dictInsert st.mediaPaths (md5hex b) ("media/" ++ (md5hex b ++ "." ++ ext)) := by
  rw [registerResource_eval md5hex detectMime outputPath st b ext hext]
  by_cases hmem : outputPath ++ "/media/" ++ (md5hex b ++ "." ++ ext) ∈ st.existingFiles <;>
    simp [hmem]

/-! ### Pipeline decomposition lemmas -/

theorem runEvents_append (md5hex detectMime : Bytes → String) (outputPath : String)
    (st : RunState) (xs ys : List Event) :
    runEvents md5hex detectMime outputPath st (xs ++ ys) =
      match runEvents md5hex detectMime outputPath st xs with
      | .error err => .error err
      | .ok st1 => runEvents md5hex detectMime outputPath st1 ys := by
  induction xs generalizing st with
  | nil => simp [runEvents]
  | cons e es ih =>
    simp only [List.cons_append, runEvents]
    cases stepEvent md5hex detectMime outputPath st e with
    | error err => rfl
    | ok st1 => exact ih st1

theorem stepEvent_title (md5hex detectMime : Bytes → String) (outputPath : String)
    (st : RunState) (t : Option String) :
    stepEvent md5hex detectMime outputPath st ⟨"title", t⟩ =
      .ok { st with title := some t } := rfl

theorem stepEvent_content (md5hex detectMime : Bytes → String) (outputPath : String)
    (st : RunState) (t : Option String) :
    stepEvent md5hex detectMime outputPath st ⟨"content", t⟩ =
      .ok { st with content := some t } := rfl

theorem stepEvent_data (md5hex detectMime : Bytes → String) (outputPath : String)
    (st : RunState) (t : Option String) :
    stepEvent md5hex detectMime outputPath st ⟨"data", t⟩ =
      match decodeDataText t with
      | .error msg => .error (.binasciiError msg)
      | .ok bs => .ok { st with data := some bs } := rfl

theorem stepEvent_resource (md5hex detectMime : Bytes → String) (outputPath : String)
    (st : RunState) :
    stepEvent md5hex detectMime outputPath st ⟨"resource", none⟩ =
      match st.data with
      | none => .error (.nameError "data")
      | some bs =>
        match registerResource md5hex detectMime outputPath st.pe bs with
        | .error err => .error err
        | .ok (_, pe1) => .ok { st with pe := pe1 } := rfl

theorem stepEvent_note (md5hex detectMime : Bytes → String) (outputPath : String)
    (st : RunState) :
    stepEvent md5hex detectMime outputPath st ⟨"note", none⟩ =
      match st.title with
      | none => .error (.nameError "title")
      | some t =>
        match st.content with
        | none => .error (.nameError "content")
        | some c => .ok { st with notes := st.notes ++ [⟨t, c, st.pe.mediaPaths⟩] } := rfl

/-- Running the events of one resource block after another: the lemma that
drives the per-note ordering argument.  Registration leaves titles, contents
and emitted notes untouched, only grows the key set of `media_paths`, and ends
with every block fingerprint present. -/
theorem run_resources (md5hex detectMime : Bytes → String) (outputPath : String)
    (rs : List String) (st : RunState)
    (hok : ∀ t ∈ rs, ∃ b, b64decode t = .ok b ∧
      (dictFind EXTENSIONS (detectMime b)).isSome) :
    ∃ st1, runEvents md5hex detectMime outputPath st ((rs.map resourceEvents).flatten) = .ok st1 ∧
      st1.title = st.title ∧ st1.content = st.content ∧ st1.notes = st.notes ∧
      (∀ k, (dictFind st.pe.mediaPaths k).isSome → (dictFind st1.pe.mediaPaths k).isSome) ∧
      (∀ t ∈ rs, ∀ b, b64decode t = .ok b →
        (dictFind st1.pe.mediaPaths (md5hex b)).isSome) := by
  induction rs generalizing st with
  | nil =>
    exact ⟨st, rfl, rfl, rfl, rfl, fun _ h => h, by simp⟩
  | cons t rs ih =>
    obtain ⟨b, hb, hext1⟩ := hok t (by simp)
    obtain ⟨ext, hext⟩ := Option.isSome_iff_exists.mp hext1
    obtain ⟨pe1, hreg, hmp⟩ :=
      registerResource_ok_of_ext md5hex detectMime outputPath st.pe b ext hext
    set sta : RunState := { st with data := some b } with hsta
    set stb : RunState := { sta with pe := pe1 } with hstb
    have hstep1 : stepEvent md5hex detectMime outputPath st ⟨"data", some t⟩ = .ok sta := by
      rw [stepEvent_data]
      simp [decodeDataText, hb]
    have hstep2 : stepEvent md5hex detectMime outputPath sta ⟨"resource", none⟩ = .ok stb := by
      rw [stepEvent_resource]
      simp [hsta, hreg]
    obtain ⟨st1, hrun, hti, hco, hno, hmono, hfps⟩ :=
      ih stb (fun u hu => hok u (by simp [hu]))
    refine ⟨st1, ?_, ?_, ?_, ?_, ?_, ?_⟩
    · simp only [List.map_cons, List.flatten_cons, resourceEvents, List.cons_append,
        List.nil_append, runEvents, hstep1, hstep2]
      exact hrun
    · exact hti
    · exact hco
    · exact hno
    · intro k hk
      apply hmono
      have : stb.pe.mediaPaths = dictInsert st.pe.mediaPaths (md5hex b)
          ("media/" ++ (md5hex b ++ "." ++ ext)) := hmp
      rw [this, dictFind_dictInsert]
      by_cases hkb : md5hex b = k <;> simp [hkb, hk]
    · intro u hu bu hbu
      rcases List.mem_cons.mp hu with hu1 | hu2
      · subst hu1
        rw [hb] at hbu
        injection hbu with hbu1
        subst hbu1
        apply hmono
        have : stb.pe.mediaPaths = dictInsert st.pe.mediaPaths (md5hex b)
            ("media/" ++ (md5hex b ++ "." ++ ext)) := hmp
        rw [this, dictFind_dictInsert]
        simp
      · exact hfps u hu2 bu hbu

/-- Running the events of one complete note subtree: the run succeeds, appends
exactly one completed note whose `media_paths` snapshot is the final one, the
key set of `media_paths` only grows, and the snapshot contains the fingerprint
of every resource nested in the note. -/
theorem run_note (md5hex detectMime : Bytes → String) (outputPath : String)
    (n : SrcNote) (st : RunState)
    (hok : ∀ t ∈ n.resources, ∃ b, b64decode t = .ok b ∧
      (dictFind EXTENSIONS (detectMime b)).isSome) :
    ∃ st1, runEvents md5hex detectMime outputPath st (noteEvents n) = .ok st1 ∧
      st1.notes = st.notes ++ [⟨some n.title, some n.content, st1.pe.mediaPaths⟩] ∧
      (∀ k, (dictFind st.pe.mediaPaths k).isSome → (dictFind st1.pe.mediaPaths k).isSome) ∧
      (∀ t ∈ n.resources, ∀ b, b64decode t = .ok b →
        (dictFind st1.pe.mediaPaths (md5hex b)).isSome) := by
  set sta : RunState := { st with title := some (some n.title) } with hsta
  set stb : RunState := { sta with content := some (some n.content) } with hstb
  have hpe : stb.pe = st.pe := rfl
  obtain ⟨stc, hrun, hti, hco, hno, hmono, hfps⟩ :=
    run_resources md5hex detectMime outputPath n.resources stb hok
  set st1 : RunState :=
    { stc with notes := stc.notes ++ [⟨some n.title, some n.content, stc.pe.mediaPaths⟩] }
    with hst1
  refine ⟨st1, ?_, ?_, ?_, ?_⟩
  · show runEvents md5hex detectMime outputPath st
      (⟨"title", some n.title⟩ :: ⟨"content", some n.content⟩ ::
        ((n.resources.map resourceEvents).flatten ++ [⟨"note", none⟩])) = .ok st1
    simp only [runEvents, stepEvent_title, stepEvent_content]
    rw [runEvents_append, hrun]
    simp only [runEvents, stepEvent_note]
    have ht1 : stc.title = some (some n.title) := by rw [hti]
    have hc1 : stc.content = some (some n.content) := by rw [hco]
    rw [ht1, hc1]
    simp [hst1, ht1, hc1]
  · simp only [hst1, hno]
  · intro k hk
    exact hmono k hk
  · exact hfps

/-- Running a whole well-formed archive: the run succeeds and the completed
notes correspond one-to-one, in order, to the source notes, each carrying a
`media_paths` snapshot that contains the fingerprint of every resource nested
in that note. -/
theorem run_archive (md5hex detectMime : Bytes → String) (outputPath : String)
    (ns : List SrcNote) (st : RunState)
    (hok : ∀ n ∈ ns, ∀ t ∈ n.resources, ∃ b, b64decode t = .ok b ∧
      (dictFind EXTENSIONS (detectMime b)).isSome) :
    ∃ st1 outs, runEvents md5hex detectMime outputPath st (archiveEvents ns) = .ok st1 ∧
      st1.notes = st.notes ++ outs ∧
      List.Forall₂ (fun (n : SrcNote) (o : NoteOut) =>
        ∀ t ∈ n.resources, ∀ b, b64decode t = .ok b →
          (dictFind o.mediaAtTransform (md5hex b)).isSome) ns outs := by
  induction ns generalizing st with
  | nil =>
    exact ⟨st, [], rfl, by simp, List.Forall₂.nil⟩
  | cons n ns ih =>
    obtain ⟨sta, hrun, hnotes, _, hfps⟩ :=
      run_note md5hex detectMime outputPath n st (hok n (by simp))
    obtain ⟨st1, outs, hrun2, hnotes2, hall⟩ :=
      ih sta (fun u hu => hok u (by simp [hu]))
    refine ⟨st1, ⟨some n.title, some n.content, sta.pe.mediaPaths⟩ :: outs, ?_, ?_, ?_⟩
    · show runEvents md5hex detectMime outputPath st (noteEvents n ++ (ns.map noteEvents).flatten) = _
      rw [runEvents_append, hrun]
      exact hrun2
    · rw [hnotes2, hnotes]
      simp
    · exact List.Forall₂.cons (fun t ht b hb => hfps t ht b hb) hall

/-! ### Claim theorems -/

/-- Claim C2: registration is idempotent under deduplication.  If registering
the byte sequence `b` succeeded, returning path `p` and state `st1`, then
registering `b` again returns the identical path `p` and leaves the state —
in particular the persistence log `writeEvents` — exactly unchanged: the
second registration performs no new write, so the bytes are written at most
once per run. -/
theorem c2_register_idempotent (md5hex detectMime : Bytes → String)
    (outputPath : String) (st : PEState) (b : Bytes) (p : String) (st1 : PEState)
    (h : registerResource md5hex detectMime outputPath st b = .ok (p, st1)) :
    registerResource md5hex detectMime outputPath st1 b = .ok (p, st1) := by
  cases hE : dictFind EXTENSIONS (detectMime b) with
  | none => simp [registerResource, hE] at h
  | some ext =>
    rw [registerResource_eval md5hex detectMime outputPath st b ext hE] at h
    rw [registerResource_eval md5hex detectMime outputPath st1 b ext hE]
    by_cases hmem : outputPath ++ "/media/" ++ (md5hex b ++ "." ++ ext) ∈ st.existingFiles
    · rw [if_pos hmem] at h
      simp only [Except.ok.injEq, Prod.mk.injEq] at h
      obtain ⟨hp, hs⟩ := h
      subst hp
      subst hs
      rw [if_pos hmem]
      simp [dictInsert_dictInsert_same]
    · rw [if_neg hmem] at h
      simp only [Except.ok.injEq, Prod.mk.injEq] at h
      obtain ⟨hp, hs⟩ := h
      subst hp
      subst hs
      rw [if_pos (List.mem_cons_self _ _)]
      simp [dictInsert_dictInsert_same]

/-- Witness for C2: a concrete successful registration, repeated — the second
call returns the same path and the unchanged state (same `writeEvents`). -/
theorem c2_witness :
    registerResource (fun _ => "abc") (fun _ => "image/png") "out"
        ⟨[("abc", "media/abc.png")], ["out/media/abc.png"], ["out/media/abc.png"]⟩ [0] =
      .ok ("media/abc.png",
        ⟨[("abc", "media/abc.png")], ["out/media/abc.png"], ["out/media/abc.png"]⟩) :=
  c2_register_idempotent (fun _ => "abc") (fun _ => "image/png") "out"
    ⟨[], [], []⟩ [0] "media/abc.png"
    ⟨[("abc", "media/abc.png")], ["out/media/abc.png"], ["out/media/abc.png"]⟩ rfl

/-- Claim C4: an attachment whose detected MIME type is absent from the fixed
`EXTENSIONS` table makes registration fail with `UnsupportedMediaType`; no
relative path is produced and no state (in particular no `media_paths` entry
for its fingerprint) is ever returned. -/
theorem c4_unsupported_mime (md5hex detectMime : Bytes → String)
    (outputPath : String) (st : PEState) (b : Bytes)
    (h : dictFind EXTENSIONS (detectMime b) = none) :
    registerResource md5hex detectMime outputPath st b =
      .error (.unsupportedMediaType (detectMime b)) ∧
    ∀ p st1, registerResource md5hex detectMime outputPath st b ≠ .ok (p, st1) := by
  have h1 : registerResource md5hex detectMime outputPath st b =
      .error (.unsupportedMediaType (detectMime b)) := by
    simp [registerResource, h]
  refine ⟨h1, fun p st1 hc => ?_⟩
  rw [h1] at hc
  exact Except.noConfusion hc

/-- Witness for C4: a detected MIME type of `text/html` is not in the table,
so registration errors out. -/
theorem c4_witness :
    registerResource (fun _ => "abc") (fun _ => "text/html") "out" ⟨[], [], []⟩ [] =
      .error (.unsupportedMediaType "text/html") :=
  (c4_unsupported_mime (fun _ => "abc") (fun _ => "text/html") "out" ⟨[], [], []⟩ []
    rfl).1

/-- Claim C8: registration is deterministic.  With the same injected digest and
MIME detection, registering equal bytes from any two states — even in
different runs, against different output directories and different
pre-existing files — returns the identical relative path; the path depends on
nothing but the content. -/
theorem c8_register_deterministic (md5hex detectMime : Bytes → String)
    (out1 out2 : String) (s1 s2 : PEState) (b : Bytes) (p1 p2 : String)
    (r1 r2 : PEState)
    (h1 : registerResource md5hex detectMime out1 s1 b = .ok (p1, r1))
    (h2 : registerResource md5hex detectMime out2 s2 b = .ok (p2, r2)) :
    p1 = p2 := by
  cases hE : dictFind EXTENSIONS (detectMime b) with
  | none => simp [registerResource, hE] at h1
  | some ext =>
    rw [registerResource_eval md5hex detectMime out1 s1 b ext hE] at h1
    rw [registerResource_eval md5hex detectMime out2 s2 b ext hE] at h2
    split at h1 <;> split at h2 <;>
      simp only [Except.ok.injEq, Prod.mk.injEq] at h1 h2 <;>
      exact h1.1.symm.trans h2.1

/-- Witness for C8: two registrations of the same bytes in two different runs
(different output path, different starting registry and filesystem) return the
same relative path. -/
theorem c8_witness :
    registerResource (fun _ => "abc") (fun _ => "image/png") "out1" ⟨[], [], []⟩ [] =
      .ok ("media/abc.png",
        ⟨[("abc", "media/abc.png")], ["out1/media/abc.png"], ["out1/media/abc.png"]⟩) ∧
    registerResource (fun _ => "abc") (fun _ => "image/png") "out2"
        ⟨[("zz", "media/zz.gif")], ["keep"], []⟩ [] =
      .ok ("media/abc.png",
        ⟨[("zz", "media/zz.gif"), ("abc", "media/abc.png")],
          ["out2/media/abc.png", "keep"], ["out2/media/abc.png"]⟩) ∧
    ("media/abc.png" : String) = "media/abc.png" :=
  ⟨rfl, rfl,
    c8_register_deterministic (fun _ => "abc") (fun _ => "image/png") "out1" "out2"
      ⟨[], [], []⟩ ⟨[("zz", "media/zz.gif")], ["keep"], []⟩ [] "media/abc.png"
      "media/abc.png"
      ⟨[("abc", "media/abc.png")], ["out1/media/abc.png"], ["out1/media/abc.png"]⟩
      ⟨[("zz", "media/zz.gif"), ("abc", "media/abc.png")],
        ["out2/media/abc.png", "keep"], ["out2/media/abc.png"]⟩ rfl rfl⟩

/-- Claim C3: transforming an embedded-media reference whose `hash` attribute
value is not a key of the registry mapping fails with
`UnknownResourceReference` (the tag handler errors, so the note's
transformation fails); it never returns an output, so it cannot silently
resolve the reference to a wrong path. -/
theorem c3_unknown_reference (mediaPaths : List (String × String))
    (attrs : List (String × Option String)) (h : String)
    (hhash : dictFind (dictOf attrs) "hash" = some (some h))
    (hmiss : dictFind mediaPaths h = none) :
    handle_starttag mediaPaths "en-media" attrs =
      .error (.unknownResourceReference (some h)) ∧
    ∀ r, handle_starttag mediaPaths "en-media" attrs ≠ .ok r := by
  have h1 : handle_starttag mediaPaths "en-media" attrs =
      .error (.unknownResourceReference (some h)) := by
    simp [handle_starttag, hhash, hmiss]
  refine ⟨h1, fun r hc => ?_⟩
  rw [h1] at hc
  exact Except.noConfusion hc

/-- Witness for C3: the hash `zz` is not in a registry holding only `abc`, so
the handler raises. -/
theorem c3_witness :
    handle_starttag [("abc", "media/abc.png")] "en-media" [("hash", some "zz")] =
      .error (.unknownResourceReference (some "zz")) :=
  (c3_unknown_reference [("abc", "media/abc.png")] [("hash", some "zz")] "zz"
    rfl rfl).1

/-- Claim C5: for an embedded-media reference whose `hash` attribute is a
registered fingerprint, the handler emits exactly the Markdown image link
`![{title}]({path})` — with the title attribute value, or the empty string
when the attribute is absent — where the path is the relative path that
registration recorded, of the form `media/{fingerprint}.{extension}` with the
extension taken from the `EXTENSIONS` table at the detected MIME type. -/
theorem c5_media_rendering (md5hex detectMime : Bytes → String)
    (outputPath : String) (st : PEState) (b : Bytes) (ext p : String)
    (st1 : PEState) (attrs : List (String × Option String))
    (hext : dictFind EXTENSIONS (detectMime b) = some ext)
    (hreg : registerResource md5hex detectMime outputPath st b = .ok (p, st1))
    (hhash : dictFind (dictOf attrs) "hash" = some (some (md5hex b))) :
    p = "media/" ++ (md5hex b ++ "." ++ ext) ∧
    (dictFind (dictOf attrs) "title" = none →
      handle_starttag st1.mediaPaths "en-media" attrs =
        .ok ⟨["![](" ++ p ++ ")"], [], false⟩) ∧
    (∀ t, dictFind (dictOf attrs) "title" = some (some t) →
      handle_starttag st1.mediaPaths "en-media" attrs =
        .ok ⟨["![" ++ t ++ "](" ++ p ++ ")"], [], false⟩) := by
  rw [registerResource_eval md5hex detectMime outputPath st b ext hext] at hreg
  have hps : p = "media/" ++ (md5hex b ++ "." ++ ext) ∧
      st1.mediaPaths =
        dictInsert st.mediaPaths (md5hex b) ("media/" ++ (md5hex b ++ "." ++ ext)) := by
    split at hreg <;>
      (simp only [Except.ok.injEq, Prod.mk.injEq] at hreg;
       exact ⟨hreg.1.symm, by rw [← hreg.2]⟩)
  obtain ⟨hp, hmp⟩ := hps
  have hfind : dictFind st1.mediaPaths (md5hex b) = some p := by
    rw [hmp, dictFind_dictInsert, hp]
    simp
  refine ⟨hp, ?_, ?_⟩
  · intro htitle
    simp [handle_starttag, hhash, hfind, htitle, fstrOfGet]
  · intro t htitle
    simp [handle_starttag, hhash, hfind, htitle, fstrOfGet]

/-- Witness for C5: registering bytes with digest `abc` and detected type
`image/png` records `media/abc.png`, and the reference with `title="Cat"`
renders as `![Cat](media/abc.png)`. -/
theorem c5_witness :
    handle_starttag [("abc", "media/abc.png")] "en-media"
        [("hash", some "abc"), ("title", some "Cat")] =
      .ok ⟨["![Cat](media/abc.png)"], [], false⟩ := by
  have h := c5_media_rendering (fun _ => "abc") (fun _ => "image/png") "out"
      ⟨[], [], []⟩ [] "png" "media/abc.png"
      ⟨[("abc", "media/abc.png")], ["out/media/abc.png"], ["out/media/abc.png"]⟩
      [("hash", some "abc"), ("title", some "Cat")] rfl rfl rfl
  simpa using h.2.2 "Cat" rfl

/-- Claim C10: an embedded-media reference start tag with no `hash` attribute
at all makes the handler fail (the subscript on the attribute dict is a
partial operation), even when the registry mapping is non-empty; no image link
is emitted. -/
theorem c10_missing_hash_attribute (mediaPaths : List (String × String))
    (attrs : List (String × Option String))
    (habs : dictFind (dictOf attrs) "hash" = none) :
    handle_starttag mediaPaths "en-media" attrs = .error (.missingAttr "hash") ∧
    ∀ r, handle_starttag mediaPaths "en-media" attrs ≠ .ok r := by
  have h1 : handle_starttag mediaPaths "en-media" attrs =
      .error (.missingAttr "hash") := by
    simp [handle_starttag, habs]
  refine ⟨h1, fun r hc => ?_⟩
  rw [h1] at hc
  exact Except.noConfusion hc

/-- Witness for C10: a non-empty registry and a tag carrying only a title — the
handler still raises on the missing `hash` attribute. -/
theorem c10_witness :
    handle_starttag [("abc", "media/abc.png")] "en-media" [("title", some "x")] =
      .error (.missingAttr "hash") :=
  (c10_missing_hash_attribute [("abc", "media/abc.png")] [("title", some "x")]
    rfl).1

/-- Claim C9: an encrypted-content marker emits no output, reports the
non-fatal diagnostic `<en-crypt> is not implemented.`, and returns normally —
it never errors, so the rest of the note keeps transforming. -/
theorem c9_encrypted_nonfatal (mediaPaths : List (String × String))
    (attrs : List (String × Option String)) :
    handle_starttag mediaPaths "en-crypt" attrs =
      .ok ⟨[], ["<en-crypt> is not implemented."], false⟩ := rfl

/-- Counterexample to claim C6 as stated: in `<en-todo checked="">` the
`checked` attribute is present (the lookup succeeds), yet the handler emits
`[ ]`, not `[x]` — Python tests the truthiness of the attribute value, not the
presence of the attribute. -/
theorem c6_counterexample :
    (dictFind (dictOf [("checked", some "")]) "checked").isSome = true ∧
    handle_starttag [] "en-todo" [("checked", some "")] =
      .ok ⟨["[ ]"], [], false⟩ :=
  ⟨rfl, rfl⟩

/-- Claim C6 as amended: for every checkable-item marker the handler emits
`[x]` exactly when the `checked` attribute is present with a non-empty value,
and `[ ]` when the attribute is absent, valueless, or has the empty string as
its value — regardless of the registry and of the other attributes. -/
theorem c6_amended_todo_rendering (mediaPaths : List (String × String))
    (attrs : List (String × Option String)) :
    (∃ v, dictFind (dictOf attrs) "checked" = some (some v) ∧ v ≠ "" ∧
      handle_starttag mediaPaths "en-todo" attrs = .ok ⟨["[x]"], [], false⟩) ∨
    ((dictFind (dictOf attrs) "checked" = none ∨
        dictFind (dictOf attrs) "checked" = some none ∨
        dictFind (dictOf attrs) "checked" = some (some "")) ∧
      handle_starttag mediaPaths "en-todo" attrs = .ok ⟨["[ ]"], [], false⟩) := by
  have hout : handle_starttag mediaPaths "en-todo" attrs =
      .ok ⟨[if pyTruthy (dictFind (dictOf attrs) "checked") then "[x]" else "[ ]"],
        [], false⟩ := by
    simp [handle_starttag]
  cases hc : dictFind (dictOf attrs) "checked" with
  | none =>
    right
    exact ⟨Or.inl rfl, by rw [hout, hc]; simp [pyTruthy]⟩
  | some v =>
    cases v with
    | none =>
      right
      exact ⟨Or.inr (Or.inl rfl), by rw [hout, hc]; simp [pyTruthy]⟩
    | some s =>
      by_cases hs : s = ""
      · subst hs
        right
        exact ⟨Or.inr (Or.inr rfl), by rw [hout, hc]; simp [pyTruthy]⟩
      · left
        exact ⟨s, rfl, hs, by rw [hout, hc]; simp [pyTruthy, hs]⟩

/-- Counterexample to claim C7 as stated: the `data` text `"a"` is malformed
base64 (one data character more than a multiple of four); it is not treated as
an empty payload — decoding raises `binascii.Error` and fails the run. -/
theorem c7_counterexample :
    runEvents (fun _ => "") (fun _ => "") "out" initRun [⟨"data", some "a"⟩] =
      .error (.binasciiError
        "Invalid base64-encoded string: number of data characters cannot be 1 more than a multiple of 4") :=
  rfl

/-- Helper for C7: starting at quad position 0, input made only of characters
outside the base64 alphabet (the padding character included) is skipped
entirely and decodes to what was already accumulated. -/
theorem a2bBase64Aux_skip_all (l : List Char) (leftchar pads : Nat)
    (acc : List Nat) (h : ∀ c ∈ l, b64Val c = none) :
    a2bBase64Aux l 0 leftchar pads acc = .ok acc.reverse := by
  induction l generalizing leftchar pads with
  | nil => rfl
  | cons c cs ih =>
    have hc := h c (by simp)
    by_cases he : c = '='
    · subst he
      have hred : a2bBase64Aux ('=' :: cs) 0 leftchar pads acc =
          a2bBase64Aux cs 0 leftchar pads acc := rfl
      rw [hred]
      exact ih leftchar pads (fun u hu => h u (by simp [hu]))
    · simp only [a2bBase64Aux, if_neg he, hc]
      exact ih leftchar pads (fun u hu => h u (by simp [hu]))

/-- Claim C7 as amended: empty or missing `data` text decodes to the empty
byte sequence, and ASCII text consisting only of characters outside the
base64 alphabet also decodes to the empty payload; but decoding is not
total — base64-alphabet text of an invalid encoded length (such as a single
data character) raises `binascii.Error`, and non-ASCII text raises
`ValueError`, either of which fails the run. -/
theorem c7_amended_data_decoding :
    (∀ text : Option String, text = none ∨ text = some "" →
      decodeDataText text = .ok []) ∧
    (∀ s : String, (∀ c ∈ s.toList, isAsciiChar c = true ∧ b64Val c = none) →
      b64decode s = .ok []) ∧
    (∃ msg, b64decode "a" = .error msg) ∧
    (∃ msg, b64decode "é" = .error msg) := by
  refine ⟨?_, ?_, ?_, ?_⟩
  · rintro text (rfl | rfl) <;> rfl
  · intro s hs
    have hascii : s.toList.all isAsciiChar = true := by
      rw [List.all_eq_true]
      exact fun c hc => (hs c hc).1
    simp only [b64decode, hascii, if_true]
    exact a2bBase64Aux_skip_all s.toList 0 0 [] fun c hc => (hs c hc).2
  · exact ⟨_, rfl⟩
  · exact ⟨_, rfl⟩

/-- Witness for C7 (amended): the missing text decodes to empty bytes, and a
text of pure ASCII garbage characters is treated as an empty payload. -/
theorem c7_witness :
    decodeDataText none = .ok [] ∧ b64decode "!?" = .ok [] :=
  ⟨c7_amended_data_decoding.1 none (Or.inl rfl),
    c7_amended_data_decoding.2.1 "!?" (by decide)⟩

/-- Claim C1: for every well-formed archive the pipeline processes (each
resource text decodes and its detected MIME type is in the table), the run
succeeds, and at the moment each note's content is transformed the
`media_paths` snapshot the transformer reads already contains the fingerprint
of every resource nested inside that note — so an embedded-media reference to
such a resource is never transformed before its fingerprint is in the
mapping. -/
theorem c1_registered_before_transform (md5hex detectMime : Bytes → String)
    (outputPath : String) (ns : List SrcNote)
    (hok : ∀ n ∈ ns, ∀ t ∈ n.resources, ∃ b, b64decode t = .ok b ∧
      (dictFind EXTENSIONS (detectMime b)).isSome) :
    ∃ final, runEvents md5hex detectMime outputPath initRun (archiveEvents ns) =
        .ok final ∧
      List.Forall₂ (fun (n : SrcNote) (o : NoteOut) =>
        ∀ t ∈ n.resources, ∀ b, b64decode t = .ok b →
          (dictFind o.mediaAtTransform (md5hex b)).isSome) ns final.notes := by
  obtain ⟨st1, outs, hrun, hnotes, hall⟩ :=
    run_archive md5hex detectMime outputPath ns initRun hok
  refine ⟨st1, hrun, ?_⟩
  rw [hnotes]
  simpa using hall

/-- Witness for C1: a one-note archive with a single empty resource, constant
injected digest and MIME detection — the run succeeds and the note's snapshot
contains the resource's fingerprint. -/
theorem c1_witness :
    ∃ final, runEvents (fun _ => "f1") (fun _ => "application/x-empty") "out"
        initRun (archiveEvents [⟨"Groceries", "<en-note/>", [""]⟩]) = .ok final ∧
      List.Forall₂ (fun (n : SrcNote) (o : NoteOut) =>
        ∀ t ∈ n.resources, ∀ b, b64decode t = .ok b →
          (dictFind o.mediaAtTransform ((fun _ => "f1") b)).isSome)
        [⟨"Groceries", "<en-note/>", [""]⟩] final.notes :=
  c1_registered_before_transform (fun _ => "f1") (fun _ => "application/x-empty")
    "out" [⟨"Groceries", "<en-note/>", [""]⟩]
    (by
      intro n hn t ht
      rw [List.mem_singleton] at hn
      subst hn
      rw [List.mem_singleton] at ht
      subst ht
      exact ⟨[], rfl, rfl⟩)
